import Mathlib

/-!
Formal model of `target_shift.py`, a golf shot-dispersion study.  The
Python source draws batches of 2D shots from a bivariate normal
distribution, computes each shot's proximity to the hole, scores
proximities with a strokes-gained-putting (SGP) baseline, and sweeps an
aim offset to study mean/median sensitivity.  Randomness (numpy's global
generator) is modelled by an explicit stream `z : ℕ → ℝ × ℝ` of
standard-normal draws together with a counter that every sampling call
advances by its batch size, making the sequential consumption of the
global random state explicit.
-/

/-- 2D vectors, as in the numpy arrays of shape (2,). -/
abbrev Vec2 : Type := ℝ × ℝ

/-- A 2×2 real matrix with entries a b / c d (row major). -/
structure Mat2 where
  a : ℝ
  b : ℝ
  c : ℝ
  d : ℝ

/-- Scalar multiple of a 2×2 matrix. -/
def Mat2.smul (s : ℝ) (m : Mat2) : Mat2 :=
  ⟨s * m.a, s * m.b, s * m.c, s * m.d⟩

/-- `np.identity(2)`. -/
def identity2 : Mat2 := ⟨1, 0, 0, 1⟩

/-- Matrix–vector product. -/
def Mat2.mulVec (m : Mat2) (v : Vec2) : Vec2 :=
  (m.a * v.1 + m.b * v.2, m.c * v.1 + m.d * v.2)

/-- Matrix transpose. -/
def Mat2.transpose (m : Mat2) : Mat2 := ⟨m.a, m.c, m.b, m.d⟩

/-- Matrix product. -/
def Mat2.mul (m n : Mat2) : Mat2 :=
  ⟨m.a * n.a + m.b * n.c, m.a * n.b + m.b * n.d,
   m.c * n.a + m.d * n.c, m.c * n.b + m.d * n.d⟩

/-- Lower-triangular (Cholesky) factor L of a symmetric 2×2 covariance
[[a,b],[b,d]]; `L * Lᵀ` recovers the covariance when it is positive
semidefinite. -/
noncomputable def covFactor (m : Mat2) : Mat2 :=
  ⟨Real.sqrt m.a, 0, m.b / Real.sqrt m.a, Real.sqrt (m.d - m.b ^ 2 / m.a)⟩

/-- Model of the library call `numpy.random.multivariate_normal(mean, cov,
size=n)`: the i-th returned vector is `mean + L·zᵢ`, where the `zᵢ` are
consecutive standard-normal pairs taken from the stream `z` starting at
counter `k` and `L` is a factor of `cov` — an affine image of independent
standard-normal vectors, i.e. `n` independent draws of N(mean, cov). -/
noncomputable def multivariate_normal (z : ℕ → Vec2) (k : ℕ) (mean : Vec2) (cov : Mat2) (n : ℕ) : List Vec2 :=
  (List.range n).map (fun i => mean + (covFactor cov).mulVec (z (k + i)))

/-- `shot_simulation(mu, cov, n, var)` from target_shift.py: substitute the
zero mean when `mu` is None and the isotropic covariance `var**2 *
np.identity(2)` when `cov` is None, then draw `n` shots. -/
noncomputable def shot_simulation (z : ℕ → Vec2) (k : ℕ) (mu : Option Vec2) (cov : Option Mat2) (n : ℕ) (var : ℝ) : List Vec2 :=
  let mu0 : Vec2 :=
    match mu with
    | none => (0, 0)
    | some m => m
  let cov0 : Mat2 :=
    match cov with
    | none => Mat2.smul (var ^ 2) identity2
    | some c => c
  multivariate_normal z k mu0 cov0 n

/-- `get_prox(shots)` from target_shift.py: elementwise √(x² + y²). -/
noncomputable def get_prox (shots : List Vec2) : List ℝ :=
  shots.map (fun s => Real.sqrt (s.1 ^ 2 + s.2 ^ 2))

/-- Scalar branch of `SGP_array`: 1 when x ≤ 1, else 1 + 0.65·log10 x. -/
noncomputable def SGP (x : ℝ) : ℝ :=
  if x ≤ 1 then 1 else 1 + 0.65 * Real.logb 10 x

/-- `SGP_array(x)` from target_shift.py: the boolean-mask assignments
`preds[flag] = 1` and `preds[~flag] = 1 + 0.65*np.log10(x[~flag])` fill
each entry according to that entry's own comparison with 1, so the
function acts elementwise. -/
noncomputable def SGP_array (x : List ℝ) : List ℝ := x.map SGP

/-- `np.mean`. -/
noncomputable def listMean (l : List ℝ) : ℝ := l.sum / l.length

/-- `np.median`: sort, then take the middle element (odd length) or the
average of the two middle elements (even length). -/
noncomputable def listMedian (l : List ℝ) : ℝ :=
  let s := l.mergeSort (fun x y => decide (x ≤ y))
  if l.length % 2 = 1 then s.getD (l.length / 2) 0
  else (s.getD (l.length / 2 - 1) 0 + s.getD (l.length / 2) 0) / 2

/-- `np.linspace(start, stop, num)`: `num` evenly spaced points from
`start` to `stop`, both endpoints included; `num = 1` gives `[start]` and
`num = 0` gives the empty list. -/
noncomputable def linspace (start stop : ℝ) (num : ℕ) : List ℝ :=
  if num = 1 then [start]
  else (List.range num).map (fun i : ℕ => start + (i : ℝ) * ((stop - start) / ((num : ℝ) - 1)))

/-- The per-target body of the loop in `expectation_sensitivity`:
(mean prox, median prox, mean strokes, median strokes), with the mean
vector `np.array([target, 0])` and `k` the random counter at the start of
that iteration. -/
noncomputable def offsetStats (z : ℕ → Vec2) (cov : Option Mat2) (n : ℕ) (var : ℝ) (target : ℝ) (k : ℕ) : ℝ × ℝ × ℝ × ℝ :=
  let prox := get_prox (shot_simulation z k (some (target, 0)) cov n var)
  let strokes := SGP_array prox
  (listMean prox, listMedian prox, listMean strokes, listMedian strokes)

/-- The for-loop of `expectation_sensitivity`: one `offsetStats` per
target in order, each iteration consuming `n` draws from the stream. -/
noncomputable def sweepLoop (z : ℕ → Vec2) (cov : Option Mat2) (n : ℕ) (var : ℝ) : List ℝ → ℕ → List (ℝ × ℝ × ℝ × ℝ)
  | [], _ => []
  | t :: ts, k => offsetStats z cov n var t k :: sweepLoop z cov n var ts (k + n)

/-- Result record of `expectation_sensitivity`: the target grid `r` and
the four accumulated statistic lists, in loop order. -/
structure SweepResult where
  r : List ℝ
  dist_mean : List ℝ
  dist_median : List ℝ
  s_mean : List ℝ
  s_median : List ℝ

/-- `expectation_sensitivity(target_range, cov, n, num_steps, var)` from
target_shift.py: build `r = np.linspace(0, target_range, num=num_steps)`
and accumulate the four statistics lists over the targets of `r`. -/
noncomputable def expectation_sensitivity (z : ℕ → Vec2) (target_range : ℝ) (cov : Option Mat2) (n : ℕ) (num_steps : ℕ) (var : ℝ) : SweepResult :=
  let r := linspace 0 target_range num_steps
  let stats := sweepLoop z cov n var r 0
  ⟨r, stats.map (fun s => s.1), stats.map (fun s => s.2.1),
      stats.map (fun s => s.2.2.1), stats.map (fun s => s.2.2.2)⟩

/-- A concrete deterministic stream used to instantiate theorems at closed
inputs. -/
def zeroStream : ℕ → Vec2 := fun _ => (0, 0)

/-- The Euclidean norm of a 2D vector, via `EuclideanSpace ℝ (Fin 2)` —
the spec-side notion that `get_prox` is compared against. -/
noncomputable def euclNorm (v : Vec2) : ℝ :=
  ‖((WithLp.equiv 2 (Fin 2 → ℝ)).symm ![v.1, v.2] : EuclideanSpace ℝ (Fin 2))‖

/-- The Euclidean norm of (x, y) is √(x² + y²). -/
theorem euclNorm_eq (v : Vec2) : euclNorm v = Real.sqrt (v.1 ^ 2 + v.2 ^ 2) := by
  simp [euclNorm, EuclideanSpace.norm_eq, Fin.sum_univ_two, Real.norm_eq_abs, sq_abs]

/-- C1: for every finite distance d the scoring function returns exactly
1.0 when d ≤ 1 and 1 + 0.65·log10 d when d > 1, and `SGP_array` applies
it elementwise to a batch. -/
theorem C1_scoring (l : List ℝ) (d : ℝ) :
    SGP_array l = l.map SGP ∧ (d ≤ 1 → SGP d = 1) ∧
    (1 < d → SGP d = 1 + 0.65 * Real.logb 10 d) := by
  refine ⟨rfl, fun h => ?_, fun h => ?_⟩
  · simp [SGP, h]
  · simp [SGP, not_le.mpr h]

/-- C1 witness: the scoring facts instantiated at the concrete distances
1/2 and 100. -/
theorem C1_scoring_witness :
    ((1 : ℝ) / 2 ≤ 1 ∧ SGP (1 / 2) = 1) ∧
    (1 < (100 : ℝ) ∧ SGP 100 = 1 + 0.65 * Real.logb 10 100) :=
  ⟨⟨by norm_num, (C1_scoring [] (1 / 2)).2.1 (by norm_num)⟩,
   ⟨by norm_num, (C1_scoring [] 100).2.2 (by norm_num)⟩⟩

/-- C10: every strictly negative input is silently mapped to the floor
value 1.0 by the d ≤ 1 branch, both by the scalar function and
elementwise on a batch. -/
theorem C10_negative_distance_floor (d : ℝ) (hd : d < 0) :
    SGP d = 1 ∧ SGP_array [d] = [1] := by
  have h1 : d ≤ 1 := le_trans hd.le (by norm_num)
  exact ⟨by simp [SGP, h1], by simp [SGP_array, SGP, h1]⟩

/-- C10 witness at distance −2. -/
theorem C10_negative_distance_floor_witness :
    (-2 : ℝ) < 0 ∧ (SGP (-2) = 1 ∧ SGP_array [(-2 : ℝ)] = [1]) :=
  ⟨by norm_num, C10_negative_distance_floor (-2) (by norm_num)⟩

/-- C9: when an explicit covariance matrix is supplied, the `var`
parameter is never read — any two values of var give identical batches
for the same stream, counter, mean, covariance and batch size. -/
theorem C9_var_unused_with_explicit_cov (z : ℕ → Vec2) (k : ℕ)
    (mu : Option Vec2) (c : Mat2) (n : ℕ) (v1 v2 : ℝ) :
    shot_simulation z k mu (some c) n v1 = shot_simulation z k mu (some c) n v2 := rfl

/-- C5: `get_prox` preserves batch length, every returned value is the
Euclidean norm of the corresponding vector (hence nonnegative), and on
the single zero vector it returns [0]. -/
theorem C5_get_prox (shots : List Vec2) (i : ℕ) (hi : i < shots.length) :
    (get_prox shots).length = shots.length ∧
    (∀ p ∈ get_prox shots, 0 ≤ p) ∧
    (get_prox shots).getD i 0 = euclNorm (shots.getD i (0, 0)) ∧
    get_prox [((0 : ℝ), (0 : ℝ))] = [0] := by
  refine ⟨by simp [get_prox], ?_, ?_, by norm_num [get_prox]⟩
  · intro p hp
    simp only [get_prox, List.mem_map] at hp
    obtain ⟨s, -, rfl⟩ := hp
    exact Real.sqrt_nonneg _
  · have hlen : i < (get_prox shots).length := by simpa [get_prox] using hi
    rw [List.getD_eq_getElem _ _ hlen, List.getD_eq_getElem _ _ hi]
    simp [get_prox, euclNorm_eq]

/-- C5 witness at the batch [(0, 0)] and index 0. -/
theorem C5_get_prox_witness :
    0 < ([((0 : ℝ), (0 : ℝ))] : List Vec2).length ∧
    ((get_prox [((0 : ℝ), (0 : ℝ))]).length = ([((0 : ℝ), (0 : ℝ))] : List Vec2).length ∧
     (∀ p ∈ get_prox [((0 : ℝ), (0 : ℝ))], 0 ≤ p) ∧
     (get_prox [((0 : ℝ), (0 : ℝ))]).getD 0 0 =
       euclNorm (([((0 : ℝ), (0 : ℝ))] : List Vec2).getD 0 (0, 0)) ∧
     get_prox [((0 : ℝ), (0 : ℝ))] = [0]) :=
  ⟨by norm_num, C5_get_prox [((0 : ℝ), (0 : ℝ))] 0 (by norm_num)⟩

/-- C4: the scoring function is strictly increasing on (1, ∞), and for
equally spaced points above 1 its second difference is negative
(strict concavity). -/
theorem C4_monotone_concave (d1 d2 d h : ℝ)
    (h1 : 1 < d1) (h12 : d1 < d2) (hd : 1 < d) (hh : 0 < h) :
    SGP d1 < SGP d2 ∧ SGP d - 2 * SGP (d + h) + SGP (d + 2 * h) < 0 := by
  have hb : (1 : ℝ) < 10 := by norm_num
  have h2 : 1 < d2 := lt_trans h1 h12
  have hda : 1 < d + h := by linarith
  have hdb : 1 < d + 2 * h := by linarith
  have e1 : SGP d1 = 1 + 0.65 * Real.logb 10 d1 := by simp [SGP, not_le.mpr h1]
  have e2 : SGP d2 = 1 + 0.65 * Real.logb 10 d2 := by simp [SGP, not_le.mpr h2]
  have e3 : SGP d = 1 + 0.65 * Real.logb 10 d := by simp [SGP, not_le.mpr hd]
  have e4 : SGP (d + h) = 1 + 0.65 * Real.logb 10 (d + h) := by
    simp [SGP, not_le.mpr hda]
  have e5 : SGP (d + 2 * h) = 1 + 0.65 * Real.logb 10 (d + 2 * h) := by
    simp [SGP, not_le.mpr hdb]
  constructor
  · rw [e1, e2]
    have := Real.logb_lt_logb hb (lt_trans zero_lt_one h1) h12
    linarith
  · rw [e3, e4, e5]
    have key : Real.logb 10 d + Real.logb 10 (d + 2 * h)
        < 2 * Real.logb 10 (d + h) := by
      have hdpos : (0 : ℝ) < d := by linarith
      have hbpos : (0 : ℝ) < d + 2 * h := by linarith
      have hmpos : (0 : ℝ) < d + h := by linarith
      have hprod : 0 < d * (d + 2 * h) := mul_pos hdpos hbpos
      have hlt : d * (d + 2 * h) < (d + h) * (d + h) := by nlinarith
      have hlog := Real.logb_lt_logb hb hprod hlt
      rw [Real.logb_mul (ne_of_gt hdpos) (ne_of_gt hbpos),
        Real.logb_mul (ne_of_gt hmpos) (ne_of_gt hmpos)] at hlog
      linarith
    linarith

/-- C4 witness at d1 = 2, d2 = 3, d = 2, h = 1. -/
theorem C4_monotone_concave_witness :
    ((1 : ℝ) < 2 ∧ (2 : ℝ) < 3 ∧ (0 : ℝ) < 1) ∧
    (SGP 2 < SGP 3 ∧ SGP 2 - 2 * SGP (2 + 1) + SGP (2 + 2 * 1) < 0) :=
  ⟨⟨by norm_num, by norm_num, by norm_num⟩,
   C4_monotone_concave 2 3 2 1 (by norm_num) (by norm_num) (by norm_num) (by norm_num)⟩

/-- The Cholesky factor of the isotropic covariance v²·I is |v|·I. -/
theorem covFactor_iso (v : ℝ) :
    covFactor (Mat2.smul (v ^ 2) identity2) = ⟨|v|, 0, 0, |v|⟩ := by
  simp [covFactor, Mat2.smul, identity2, Real.sqrt_sq_eq_abs]

/-- Every call of `shot_simulation` returns exactly n vectors. -/
theorem shot_simulation_length (z : ℕ → Vec2) (k : ℕ) (mu : Option Vec2)
    (cov : Option Mat2) (n : ℕ) (var : ℝ) :
    (shot_simulation z k mu cov n var).length = n := by
  cases mu <;> cases cov <;> simp [shot_simulation, multivariate_normal]

/-- C6: with `mu` and `cov` unspecified `shot_simulation` uses the zero
mean vector and the isotropic covariance var²·I: it equals the modelled
`multivariate_normal` at those defaults, returns exactly n vectors, the
factor L used satisfies L·Lᵀ = var²·I, and the i-th vector is the affine
image (0,0) + L·zᵢ of the i-th standard-normal draw — i.e. n independent
draws of N((0,0), var²·I). -/
theorem C6_default_sampling (z : ℕ → Vec2) (k n : ℕ) (var : ℝ) (i : ℕ) (hi : i < n) :
    shot_simulation z k none none n var
      = multivariate_normal z k (0, 0) (Mat2.smul (var ^ 2) identity2) n ∧
    (shot_simulation z k none none n var).length = n ∧
    Mat2.mul (covFactor (Mat2.smul (var ^ 2) identity2))
        (Mat2.transpose (covFactor (Mat2.smul (var ^ 2) identity2)))
      = Mat2.smul (var ^ 2) identity2 ∧
    (shot_simulation z k none none n var).getD i (0, 0)
      = (0, 0) + (covFactor (Mat2.smul (var ^ 2) identity2)).mulVec (z (k + i)) := by
  refine ⟨rfl, shot_simulation_length z k none none n var, ?_, ?_⟩
  · rw [covFactor_iso]
    simp [Mat2.mul, Mat2.transpose, Mat2.smul, identity2, abs_mul_abs_self, sq]
  · have hlen : i < (shot_simulation z k none none n var).length := by
      rw [shot_simulation_length]; exact hi
    rw [List.getD_eq_getElem _ _ hlen]
    simp [shot_simulation, multivariate_normal]

/-- C6 witness at the zero stream, counter 0, batch size 1, var = 20,
index 0. -/
theorem C6_default_sampling_witness :
    0 < 1 ∧
    (shot_simulation zeroStream 0 none none 1 20
       = multivariate_normal zeroStream 0 (0, 0) (Mat2.smul ((20 : ℝ) ^ 2) identity2) 1 ∧
     (shot_simulation zeroStream 0 none none 1 20).length = 1 ∧
     Mat2.mul (covFactor (Mat2.smul ((20 : ℝ) ^ 2) identity2))
         (Mat2.transpose (covFactor (Mat2.smul ((20 : ℝ) ^ 2) identity2)))
       = Mat2.smul ((20 : ℝ) ^ 2) identity2 ∧
     (shot_simulation zeroStream 0 none none 1 20).getD 0 (0, 0)
       = (0, 0) + (covFactor (Mat2.smul ((20 : ℝ) ^ 2) identity2)).mulVec (zeroStream (0 + 0))) :=
  ⟨by norm_num, C6_default_sampling zeroStream 0 1 20 0 (by norm_num)⟩

/-- `getD` through `map`, at an in-bounds index. -/
theorem getD_map_lt {α β : Type} (f : α → β) (l : List α) (j : ℕ)
    (hj : j < l.length) (d : β) (e : α) :
    (l.map f).getD j d = f (l.getD j e) := by
  have h2 : j < (l.map f).length := by simpa using hj
  rw [List.getD_eq_getElem _ _ h2, List.getD_eq_getElem _ _ hj, List.getElem_map]

/-- The sweep loop produces one statistics tuple per target. -/
theorem sweepLoop_length (z : ℕ → Vec2) (cov : Option Mat2) (n : ℕ) (var : ℝ)
    (l : List ℝ) : ∀ k, (sweepLoop z cov n var l k).length = l.length := by
  induction l with
  | nil => intro k; rfl
  | cons t ts ih => intro k; simp [sweepLoop, ih]

/-- The j-th tuple of the sweep loop is `offsetStats` at the j-th target,
with the random counter advanced by j batches. -/
theorem sweepLoop_getD (z : ℕ → Vec2) (cov : Option Mat2) (n : ℕ) (var : ℝ)
    (l : List ℝ) : ∀ k j, j < l.length →
    (sweepLoop z cov n var l k).getD j (0, 0, 0, 0)
      = offsetStats z cov n var (l.getD j 0) (k + j * n) := by
  induction l with
  | nil => intro k j hj; simp at hj
  | cons t ts ih =>
    intro k j hj
    cases j with
    | zero => simp [sweepLoop]
    | succ j =>
      have hj' : j < ts.length := by simpa using hj
      simp only [sweepLoop, List.getD_cons_succ, List.getD_cons_succ]
      rw [ih (k + n) j hj']
      congr 1
      ring

/-- The offset grid of the sweep result. -/
theorem expectation_sensitivity_r (z : ℕ → Vec2) (R : ℝ) (cov : Option Mat2)
    (n m : ℕ) (var : ℝ) :
    (expectation_sensitivity z R cov n m var).r = linspace 0 R m := rfl

/-- The mean-proximity list of the sweep result. -/
theorem expectation_sensitivity_dist_mean (z : ℕ → Vec2) (R : ℝ)
    (cov : Option Mat2) (n m : ℕ) (var : ℝ) :
    (expectation_sensitivity z R cov n m var).dist_mean
      = (sweepLoop z cov n var (linspace 0 R m) 0).map (fun s => s.1) := rfl

/-- The median-proximity list of the sweep result. -/
theorem expectation_sensitivity_dist_median (z : ℕ → Vec2) (R : ℝ)
    (cov : Option Mat2) (n m : ℕ) (var : ℝ) :
    (expectation_sensitivity z R cov n m var).dist_median
      = (sweepLoop z cov n var (linspace 0 R m) 0).map (fun s => s.2.1) := rfl

/-- The mean-score list of the sweep result. -/
theorem expectation_sensitivity_s_mean (z : ℕ → Vec2) (R : ℝ)
    (cov : Option Mat2) (n m : ℕ) (var : ℝ) :
    (expectation_sensitivity z R cov n m var).s_mean
      = (sweepLoop z cov n var (linspace 0 R m) 0).map (fun s => s.2.2.1) := rfl

/-- The median-score list of the sweep result. -/
theorem expectation_sensitivity_s_median (z : ℕ → Vec2) (R : ℝ)
    (cov : Option Mat2) (n m : ℕ) (var : ℝ) :
    (expectation_sensitivity z R cov n m var).s_median
      = (sweepLoop z cov n var (linspace 0 R m) 0).map (fun s => s.2.2.2) := rfl

/-- `linspace` always returns `num` points. -/
theorem linspace_length (start stop : ℝ) (num : ℕ) :
    (linspace start stop num).length = num := by
  unfold linspace
  split
  · next h => simp [h]
  · rw [List.length_map, List.length_range]

/-- For num ≥ 2, the j-th linspace point over [0, R] is j·(R/(num−1)). -/
theorem linspace_getD (R : ℝ) (num : ℕ) (h2 : 2 ≤ num) (j : ℕ) (hj : j < num) :
    (linspace 0 R num).getD j 0 = (j : ℝ) * (R / ((num : ℝ) - 1)) := by
  have h1 : num ≠ 1 := by omega
  unfold linspace
  rw [if_neg h1]
  rw [getD_map_lt _ _ j (by simpa using hj) 0 0]
  have hr : (List.range num).getD j 0 = j := by
    rw [List.getD_eq_getElem _ _ (by simpa using hj)]
    simp
  rw [hr]
  ring

/-- C2: for each index j into the sweep's offset grid, the loop body at
that offset builds the mean vector (offset, 0), draws one batch of n
shots with the given dispersion, computes its proximities, scores those
same proximities with `SGP_array`, and records mean and median of each,
in grid order. -/
theorem C2_sweep_body (z : ℕ → Vec2) (R : ℝ) (cov : Option Mat2)
    (n m : ℕ) (var : ℝ) (j : ℕ) (hj : j < m) :
    (shot_simulation z (j * n) (some ((linspace 0 R m).getD j 0, 0)) cov n var).length = n ∧
    (expectation_sensitivity z R cov n m var).dist_mean.getD j 0
      = listMean (get_prox (shot_simulation z (j * n)
          (some ((linspace 0 R m).getD j 0, 0)) cov n var)) ∧
    (expectation_sensitivity z R cov n m var).dist_median.getD j 0
      = listMedian (get_prox (shot_simulation z (j * n)
          (some ((linspace 0 R m).getD j 0, 0)) cov n var)) ∧
    (expectation_sensitivity z R cov n m var).s_mean.getD j 0
      = listMean (SGP_array (get_prox (shot_simulation z (j * n)
          (some ((linspace 0 R m).getD j 0, 0)) cov n var))) ∧
    (expectation_sensitivity z R cov n m var).s_median.getD j 0
      = listMedian (SGP_array (get_prox (shot_simulation z (j * n)
          (some ((linspace 0 R m).getD j 0, 0)) cov n var))) := by
  have hrl : (linspace 0 R m).length = m := linspace_length 0 R m
  have hjr : j < (linspace 0 R m).length := by rw [hrl]; exact hj
  have hsl : j < (sweepLoop z cov n var (linspace 0 R m) 0).length := by
    rw [sweepLoop_length]; exact hjr
  have hstats := sweepLoop_getD z cov n var (linspace 0 R m) 0 j hjr
  rw [Nat.zero_add] at hstats
  refine ⟨shot_simulation_length z (j * n) _ cov n var, ?_, ?_, ?_, ?_⟩
  · rw [expectation_sensitivity_dist_mean,
      getD_map_lt _ _ j hsl 0 (0, 0, 0, 0), hstats]
    rfl
  · rw [expectation_sensitivity_dist_median,
      getD_map_lt _ _ j hsl 0 (0, 0, 0, 0), hstats]
    rfl
  · rw [expectation_sensitivity_s_mean,
      getD_map_lt _ _ j hsl 0 (0, 0, 0, 0), hstats]
    rfl
  · rw [expectation_sensitivity_s_median,
      getD_map_lt _ _ j hsl 0 (0, 0, 0, 0), hstats]
    rfl

/-- C2 witness at the zero stream, R = 1, n = 1, m = 2, var = 1, j = 0. -/
theorem C2_sweep_body_witness :
    0 < 2 ∧
    ((shot_simulation zeroStream (0 * 1) (some ((linspace 0 1 2).getD 0 0, 0)) none 1 1).length = 1 ∧
     (expectation_sensitivity zeroStream 1 none 1 2 1).dist_mean.getD 0 0
       = listMean (get_prox (shot_simulation zeroStream (0 * 1)
           (some ((linspace 0 1 2).getD 0 0, 0)) none 1 1)) ∧
     (expectation_sensitivity zeroStream 1 none 1 2 1).dist_median.getD 0 0
       = listMedian (get_prox (shot_simulation zeroStream (0 * 1)
           (some ((linspace 0 1 2).getD 0 0, 0)) none 1 1)) ∧
     (expectation_sensitivity zeroStream 1 none 1 2 1).s_mean.getD 0 0
       = listMean (SGP_array (get_prox (shot_simulation zeroStream (0 * 1)
           (some ((linspace 0 1 2).getD 0 0, 0)) none 1 1))) ∧
     (expectation_sensitivity zeroStream 1 none 1 2 1).s_median.getD 0 0
       = listMedian (SGP_array (get_prox (shot_simulation zeroStream (0 * 1)
           (some ((linspace 0 1 2).getD 0 0, 0)) none 1 1)))) :=
  ⟨by norm_num, C2_sweep_body zeroStream 1 none 1 2 1 0 (by norm_num)⟩

/-- C3 (amended): for num_steps ≥ 2 the sweep evaluates exactly num_steps
offsets with first offset 0, last offset offset_range and constant
spacing offset_range/(num_steps − 1); for offset_range ≥ 0 the offsets —
and with them the per-offset statistics lists, which have the same
length and order — are in ascending order. -/
theorem C3_offset_grid (z : ℕ → Vec2) (R : ℝ) (cov : Option Mat2)
    (n m : ℕ) (var : ℝ) (h2 : 2 ≤ m) (hR : 0 ≤ R) :
    (expectation_sensitivity z R cov n m var).r.length = m ∧
    (expectation_sensitivity z R cov n m var).r.getD 0 0 = 0 ∧
    (expectation_sensitivity z R cov n m var).r.getD (m - 1) 0 = R ∧
    (∀ j, j + 1 < m →
      (expectation_sensitivity z R cov n m var).r.getD (j + 1) 0
        - (expectation_sensitivity z R cov n m var).r.getD j 0
        = R / ((m : ℝ) - 1)) ∧
    (expectation_sensitivity z R cov n m var).r.Sorted (· ≤ ·) ∧
    (expectation_sensitivity z R cov n m var).dist_mean.length = m ∧
    (expectation_sensitivity z R cov n m var).dist_median.length = m ∧
    (expectation_sensitivity z R cov n m var).s_mean.length = m ∧
    (expectation_sensitivity z R cov n m var).s_median.length = m := by
  have h1 : m ≠ 1 := by omega
  have hm2 : (2 : ℝ) ≤ (m : ℝ) := by exact_mod_cast h2
  have hne : ((m : ℝ) - 1) ≠ 0 := by linarith
  have hstep : 0 ≤ R / ((m : ℝ) - 1) := div_nonneg hR (by linarith)
  have hlen : ∀ p : ℝ × ℝ × ℝ × ℝ → ℝ,
      ((sweepLoop z cov n var (linspace 0 R m) 0).map p).length = m := by
    intro p
    rw [List.length_map, sweepLoop_length, linspace_length]
  refine ⟨by rw [expectation_sensitivity_r, linspace_length], ?_, ?_, ?_, ?_,
    hlen _, hlen _, hlen _, hlen _⟩
  · rw [expectation_sensitivity_r, linspace_getD R m h2 0 (by omega)]
    simp
  · rw [expectation_sensitivity_r, linspace_getD R m h2 (m - 1) (by omega)]
    have hc : ((m - 1 : ℕ) : ℝ) = (m : ℝ) - 1 := by
      rw [Nat.cast_sub (by omega)]
      simp
    rw [hc, mul_comm]
    exact div_mul_cancel₀ R hne
  · intro j hj
    rw [expectation_sensitivity_r, linspace_getD R m h2 (j + 1) hj,
      linspace_getD R m h2 j (by omega)]
    push_cast
    ring
  · rw [expectation_sensitivity_r]
    unfold linspace
    rw [if_neg h1]
    rw [List.Sorted, List.pairwise_map]
    simp only [sub_zero, zero_add]
    refine (List.pairwise_lt_range m).imp ?_
    intro a b hab
    have : (a : ℝ) ≤ (b : ℝ) := by exact_mod_cast hab.le
    have := mul_le_mul_of_nonneg_right this hstep
    linarith

/-- C3 witness at z = zeroStream, R = 1, m = 2, n = 1, var = 1. -/
theorem C3_offset_grid_witness :
    (2 ≤ 2 ∧ (0 : ℝ) ≤ 1) ∧
    ((expectation_sensitivity zeroStream 1 none 1 2 1).r.length = 2 ∧
     (expectation_sensitivity zeroStream 1 none 1 2 1).r.getD 0 0 = 0 ∧
     (expectation_sensitivity zeroStream 1 none 1 2 1).r.getD (2 - 1) 0 = 1 ∧
     (∀ j, j + 1 < 2 →
       (expectation_sensitivity zeroStream 1 none 1 2 1).r.getD (j + 1) 0
         - (expectation_sensitivity zeroStream 1 none 1 2 1).r.getD j 0
         = 1 / (((2 : ℕ) : ℝ) - 1)) ∧
     (expectation_sensitivity zeroStream 1 none 1 2 1).r.Sorted (· ≤ ·) ∧
     (expectation_sensitivity zeroStream 1 none 1 2 1).dist_mean.length = 2 ∧
     (expectation_sensitivity zeroStream 1 none 1 2 1).dist_median.length = 2 ∧
     (expectation_sensitivity zeroStream 1 none 1 2 1).s_mean.length = 2 ∧
     (expectation_sensitivity zeroStream 1 none 1 2 1).s_median.length = 2) :=
  ⟨⟨by norm_num, by norm_num⟩,
   C3_offset_grid zeroStream 1 none 1 2 1 (by norm_num) (by norm_num)⟩

/-- C3 counterexample: with offset_range = −1 and num_steps = 2 the
offset grid is [0, −1], which is not in ascending order — the claim's
"for every offset_range" fails for negative ranges. -/
theorem C3_counterexample :
    (expectation_sensitivity zeroStream (-1) none 1 2 1).r = [0, -1] ∧
    ¬ (expectation_sensitivity zeroStream (-1) none 1 2 1).r.Sorted (· ≤ ·) := by
  have hx : (expectation_sensitivity zeroStream (-1) none 1 2 1).r = [0, -1] := by
    rw [expectation_sensitivity_r]
    unfold linspace
    norm_num [List.range_succ]
  refine ⟨hx, ?_⟩
  rw [hx]
  simp only [List.sorted_cons, List.mem_singleton, List.mem_cons]
  intro h
  have h01 := (h.1 (-1)) (by simp)
  linarith

/-- C7 counterexample: invalid parameters do not fail fast — a negative
distance yields the floor score [1] instead of an error, a negative
dispersion samples exactly as its positive counterpart, and num_steps = 1
yields the single offset 0 instead of an error. -/
theorem C7_counterexample :
    SGP_array [(-5 : ℝ)] = [1] ∧
    shot_simulation zeroStream 0 none none 3 (-20)
      = shot_simulation zeroStream 0 none none 3 20 ∧
    (expectation_sensitivity zeroStream 5 none 2 1 1).r = [0] := by
  refine ⟨?_, ?_, ?_⟩
  · norm_num [SGP_array, SGP]
  · show multivariate_normal zeroStream 0 (0, 0) (Mat2.smul ((-20 : ℝ) ^ 2) identity2) 3
        = multivariate_normal zeroStream 0 (0, 0) (Mat2.smul ((20 : ℝ) ^ 2) identity2) 3
    norm_num
  · rw [expectation_sensitivity_r]
    simp [linspace]

/-- C7 (amended): the code performs no input validation and raises no
error in these cases: the scoring function silently maps every negative
distance to the floor 1.0, the sampler accepts any dispersion value var
and squares it into the covariance var²·I (so var and −var give identical
batches), and a sweep with num_steps = 1 returns the single offset 0
rather than failing. -/
theorem C7_no_validation (d : ℝ) (hd : d < 0) (z : ℕ → Vec2) (k n : ℕ) (v : ℝ)
    (R : ℝ) (cov : Option Mat2) (b : ℕ) (w : ℝ) :
    SGP d = 1 ∧
    shot_simulation z k none none n v = shot_simulation z k none none n (-v) ∧
    (expectation_sensitivity z R cov b 1 w).r = [0] := by
  refine ⟨?_, ?_, ?_⟩
  · have h1 : d ≤ 1 := le_trans hd.le (by norm_num)
    simp [SGP, h1]
  · show multivariate_normal z k (0, 0) (Mat2.smul (v ^ 2) identity2) n
        = multivariate_normal z k (0, 0) (Mat2.smul ((-v) ^ 2) identity2) n
    rw [neg_sq]
  · rw [expectation_sensitivity_r]
    simp [linspace]

/-- C7 witness at d = −5, v = 7, R = 3, batch size 2. -/
theorem C7_no_validation_witness :
    (-5 : ℝ) < 0 ∧
    (SGP (-5) = 1 ∧
     shot_simulation zeroStream 0 none none 2 7
       = shot_simulation zeroStream 0 none none 2 (-7) ∧
     (expectation_sensitivity zeroStream 3 none 2 1 1).r = [0]) :=
  ⟨by norm_num, C7_no_validation (-5) (by norm_num) zeroStream 0 2 7 3 none 2 1⟩

/-- C8: with the random source derived deterministically from a seed (any
derivation mk), two sweep invocations with identical seeds and identical
parameters produce identical outputs — the sweep is a deterministic
function of the seed and its parameters. -/
theorem C8_reproducible (mk : ℕ → ℕ → Vec2) (s1 s2 : ℕ) (R1 R2 : ℝ)
    (cov1 cov2 : Option Mat2) (n1 n2 m1 m2 : ℕ) (v1 v2 : ℝ)
    (hs : s1 = s2) (hR : R1 = R2) (hcov : cov1 = cov2) (hn : n1 = n2)
    (hm : m1 = m2) (hv : v1 = v2) :
    expectation_sensitivity (mk s1) R1 cov1 n1 m1 v1
      = expectation_sensitivity (mk s2) R2 cov2 n2 m2 v2 := by
  subst hs
  subst hR
  subst hcov
  subst hn
  subst hm
  subst hv
  rfl

/-- C8 witness: identical seed 0 and identical parameters give identical
sweep results. -/
theorem C8_reproducible_witness :
    (0 = 0 ∧ (1 : ℝ) = 1 ∧ (none : Option Mat2) = none ∧ 2 = 2 ∧ 3 = 3 ∧ (4 : ℝ) = 4) ∧
    expectation_sensitivity zeroStream 1 none 2 3 4
      = expectation_sensitivity zeroStream 1 none 2 3 4 :=
  ⟨⟨rfl, rfl, rfl, rfl, rfl, rfl⟩,
   C8_reproducible (fun _ => zeroStream) 0 0 1 1 none none 2 2 3 3 4 4
     rfl rfl rfl rfl rfl rfl⟩
